import Mathlib

/-!
Shallow embedding of the data-preparation pipeline of `src/ecommerce_app.py`
(E-Commerce EDA dashboard): column-name normalization at load time,
`safe_to_datetime`, `compute_sales`, the sidebar filter block applied to
`df_work`, and `safe_groupby_sum`, together with the module-level ingestion
`try/except` around `load_df`.

A pandas `DataFrame` is modelled as an ordered list of column names plus a
list of rows, each row a list of cell values aligned with the column names.
Cell values are rationals (numbers), text, dates (a date is a point on a
linear time axis, modelled as a rational epoch offset), or the null marker
(`NaN`/`NaT`).  Text that `pd.to_numeric`/`pd.to_datetime` would parse
successfully is modelled directly as a `num`/`date` value; `Value.str` stands
for text on which the coercion fails.
-/

/-- A cell of the table: number, text, date, or the null marker (NaN/NaT). -/
inductive Value where
  | num (x : ℚ)
  | str (s : String)
  | date (d : ℚ)
  | null
deriving DecidableEq

/-- `pd.to_numeric(·, errors="coerce").fillna(0)` applied to one cell:
numbers pass through, every value whose numeric coercion fails becomes 0. -/
def coerceNum : Value → ℚ
  | .num x => x
  | .str _ => 0
  | .date _ => 0
  | .null => 0

/-- `pd.to_datetime(·, errors="coerce")` applied to one cell: dates pass
through, numbers are read as epoch offsets, unparseable text and null become
the null marker (`NaT`). -/
def coerceDate : Value → Value
  | .date d => .date d
  | .num x => .date x
  | .str _ => .null
  | .null => .null

/-- Index of a column name in a header list (first occurrence), as used by
`c in df.columns` / column subscripting. -/
def colIdx : List String → String → Option Nat
  | [], _ => none
  | n :: ns, c => if n = c then some 0 else (colIdx ns c).map (· + 1)

/-- A pandas DataFrame: ordered column names and rows of cells aligned with
them. -/
structure DF where
  colNames : List String
  rows : List (List Value)
deriving DecidableEq

namespace DF

/-- `c in df.columns`. -/
def hasCol (df : DF) (c : String) : Bool :=
  (colIdx df.colNames c).isSome

/-- The cell of row `r` in column `c` (null when the column is absent or the
row is too short). -/
def cellAt (df : DF) (r : List Value) (c : String) : Value :=
  match colIdx df.colNames c with
  | some i => r.getD i Value.null
  | none => Value.null

/-- The column `df[c]` as a list of cells, one per row. -/
def col (df : DF) (c : String) : List Value :=
  df.rows.map (fun r => df.cellAt r c)

/-- Number of rows. -/
def nrows (df : DF) : Nat :=
  df.rows.length

/-- `df[c] = <series>`: replace column `c` in place when it exists, else
append it on the right; the new cell of each row is computed from the row's
previous cells (pandas evaluates the right-hand side before assigning). -/
def setColWith (df : DF) (c : String) (f : List Value → Value) : DF :=
  match colIdx df.colNames c with
  | some i => ⟨df.colNames, df.rows.map (fun r => r.set i (f r))⟩
  | none => ⟨df.colNames ++ [c], df.rows.map (fun r => r ++ [f r])⟩

/-- Boolean-mask row filtering `df[mask]`, the mask computed per row. -/
def filterRows (df : DF) (p : List Value → Bool) : DF :=
  ⟨df.colNames, df.rows.filter p⟩

/-- Well-formedness: every row has exactly one cell per column. -/
def WF (df : DF) : Prop :=
  ∀ r ∈ df.rows, r.length = df.colNames.length

instance (df : DF) : Decidable df.WF :=
  inferInstanceAs (Decidable (∀ r ∈ df.rows, r.length = df.colNames.length))

end DF

/-- The date-column candidates of the application (`date_candidates`). -/
def dateCandidates : List String :=
  ["order_date", "order date", "date", "orderdate"]

/-- `safe_to_datetime(df, candidates, new_col)` from the source: the first
candidate column present in the table is parsed permissively into `new_col`
(the permissive parser is total, so the `try/except/continue` in the source
never moves past the first present candidate); if no candidate is present,
`new_col` is created filled with `NaT`. -/
def safe_to_datetime (df : DF) (candidates : List String) (newCol : String) : DF :=
  match candidates.find? (fun c => df.hasCol c) with
  | some c => df.setColWith newCol (fun r => coerceDate (df.cellAt r c))
  | none => df.setColWith newCol (fun _ => Value.null)

/-- `d.max() > 1` on the coerced discount series: pandas' max of an empty
series is NaN and `NaN > 1` is False, so an empty column is never treated as
percentages. -/
def discountIsPercent (l : List ℚ) : Bool :=
  match l.max? with
  | some m => decide (m > 1)
  | none => false

/-- The discount fraction the sales formula uses for row `r`: the coerced
`discount` cell, divided by 100 when the whole column's maximum exceeds 1
(the dataset-wide percent heuristic `if d.max() > 1: d = d / 100.0`). -/
def effDiscount (df : DF) (r : List Value) : ℚ :=
  if discountIsPercent ((df.col "discount").map coerceNum) then
    coerceNum (df.cellAt r "discount") / 100
  else
    coerceNum (df.cellAt r "discount")

/-- The fallback total columns tried by `compute_sales`. -/
def fallbackCols : List String :=
  ["order_total", "amount", "total"]

/-- `compute_sales(df)` from the source: prefer an existing `sales` column
(coerced to numeric, non-numeric → 0); else, when both `quantity` and
`price` exist, `sales = q * p * (1 - d)` with `d` the (percent-adjusted)
discount, or `q * p` when there is no `discount` column; else the first of
the fallback total columns, coerced; else the constant 0. -/
def compute_sales (df : DF) : DF :=
  if df.hasCol "sales" then
    df.setColWith "sales" (fun r => Value.num (coerceNum (df.cellAt r "sales")))
  else
    if df.hasCol "quantity" && df.hasCol "price" then
      if df.hasCol "discount" then
        df.setColWith "sales" (fun r =>
          Value.num (coerceNum (df.cellAt r "quantity") *
            coerceNum (df.cellAt r "price") * (1 - effDiscount df r)))
      else
        df.setColWith "sales" (fun r =>
          Value.num (coerceNum (df.cellAt r "quantity") *
            coerceNum (df.cellAt r "price")))
    else
      match fallbackCols.find? (fun c => df.hasCol c) with
      | some fb => df.setColWith "sales" (fun r => Value.num (coerceNum (df.cellAt r fb)))
      | none => df.setColWith "sales" (fun _ => Value.num 0)

/-- `safe_groupby_sum(df, by, col)` from the source: empty result when the
grouping column is absent; otherwise one `(key, sum)` pair per distinct
non-null key (pandas' groupby drops null keys; pandas additionally sorts
the keys, an ordering no claim depends on — keys are listed here in a
deduplicated order). -/
def safe_groupby_sum (df : DF) (b : String) (c : String) : List (Value × ℚ) :=
  if df.hasCol b then
    let pairs := df.rows.map (fun r => (df.cellAt r b, coerceNum (df.cellAt r c)))
    let keys := ((pairs.map Prod.fst).filter (fun v => decide (v ≠ Value.null))).dedup
    keys.map (fun k => (k, ((pairs.filter (fun q => decide (q.1 = k))).map Prod.snd).sum))
  else []

/-- The filter selections the sidebar form can hand to the filter block:
an optional date interval and the accepted-value lists of the three
categorical multiselects (an empty list means the filter is off, matching
Python truthiness `if cats:`). -/
structure FilterSel where
  dateRange : Option (ℚ × ℚ)
  cats : List Value
  regions : List Value
  payments : List Value
deriving DecidableEq

/-- One conjunct of the date mask
`(df_work["order_date"] >= start) & (df_work["order_date"] <= end)`:
comparisons against `NaT` (and non-date cells) are False in pandas. -/
def dateInRange (v : Value) (s e : ℚ) : Bool :=
  match v with
  | .date d => decide (s ≤ d) && decide (d ≤ e)
  | _ => false

/-- The filter block of the source applied to `df_work = df.copy()`: date
interval first (when a 2-element range was submitted), then the three
`isin` filters, each applied only when its accepted-value list is nonempty. -/
def applyFilters (df : DF) (sel : FilterSel) : DF :=
  let d1 :=
    match sel.dateRange with
    | some se => df.filterRows (fun r => dateInRange (df.cellAt r "order_date") se.1 se.2)
    | none => df
  let d2 :=
    if sel.cats.isEmpty then d1
    else d1.filterRows (fun r => decide (d1.cellAt r "category" ∈ sel.cats))
  let d3 :=
    if sel.regions.isEmpty then d2
    else d2.filterRows (fun r => decide (d2.cellAt r "region" ∈ sel.regions))
  if sel.payments.isEmpty then d3
  else d3.filterRows (fun r => decide (d3.cellAt r "payment_method" ∈ sel.payments))

/-- `df_work["sales"].sum()`, the Total Sales KPI. -/
def totalSales (df : DF) : ℚ :=
  ((df.col "sales").map coerceNum).sum

/-- What the ingestion boundary can encounter: the dataset file is missing,
unreadable (any other `pd.read_csv` failure, with its cause), or a good
table.  The outcome of the external `pd.read_csv` call is abstracted into
this type. -/
inductive Source where
  | missing
  | unreadable (cause : String)
  | good (raw : DF)

/-- The two ingestion failure conditions of the module-level `try/except`:
`FileNotFoundError` is reported as a distinct "source not found" condition,
every other exception as "load failed" with the underlying cause. -/
inductive LoadError where
  | sourceNotFound
  | loadFailed (cause : String)
deriving DecidableEq

/-- The column-name normalization inside `load_df`:
`df.columns = [c.strip().lower() for c in df.columns]`. -/
def normalizeCols (df : DF) : DF :=
  ⟨df.colNames.map (fun c => c.trim.toLower), df.rows⟩

/-- `load_df(path)`: read the CSV (outcome abstracted by `Source`) and
normalize the column names; a missing file raises `FileNotFoundError`
(caught first by the module-level handler), any other failure raises a
generic exception carrying its cause. -/
def load_df (s : Source) : Except LoadError DF :=
  match s with
  | .missing => .error .sourceNotFound
  | .unreadable cause => .error (.loadFailed cause)
  | .good raw => .ok (normalizeCols raw)

/-- A rendered dashboard, reduced to the data the presentation layer
consumes: the filtered working table and the Total Sales KPI. -/
structure Dashboard where
  table : DF
  total : ℚ
deriving DecidableEq

/-- The module-level pipeline: ingest (any failure calls `st.stop()`, so no
dashboard at all is produced), then resolve the date column, derive sales,
filter, and hand the result to the presentation layer.  Chart-only derived
columns (`yearmonth`, `_disc_bin`) are omitted; no claim touches them. -/
def runPipeline (s : Source) (sel : FilterSel) : Except LoadError Dashboard :=
  match load_df s with
  | .error e => .error e
  | .ok df =>
      let dfp := compute_sales (safe_to_datetime df dateCandidates "order_date")
      let dfw := applyFilters dfp sel
      .ok ⟨dfw, totalSales dfw⟩

/-- The state of the argument table after a call `safe_to_datetime(df, …)`:
the source assigns `df[new_col] = …` on the very object it was handed and
returns that same object, so the argument ends up equal to the return
value, not to its pre-call state. -/
def safe_to_datetime_argAfter (df : DF) (candidates : List String) (newCol : String) : DF :=
  safe_to_datetime df candidates newCol

/-- The state of the argument table after a call `compute_sales(df)`: the
source assigns `df["sales"] = …` in place and returns the same object. -/
def compute_sales_argAfter (df : DF) : DF :=
  compute_sales df

/-- The state of the prepared table after the filter block runs: the block
starts from `df_work = df.copy()` and only ever rebinds `df_work`, so the
table it was given is untouched. -/
def applyFilters_argAfter (df : DF) (_sel : FilterSel) : DF :=
  df

/-! ### Concrete tables used to instantiate the theorems -/

/-- The two-row scenario table of the spec:
`[{quantity:2, price:10, discount:0}, {quantity:1, price:5, discount:50}]`. -/
def exScenario : DF :=
  ⟨["quantity", "price", "discount"],
    [[Value.num 2, Value.num 10, Value.num 0],
     [Value.num 1, Value.num 5, Value.num 50]]⟩

/-- A table that already has a `sales` column (one numeric and one
non-numeric cell). -/
def exSales : DF :=
  ⟨["sales"], [[Value.num 3], [Value.str "x"]]⟩

/-- A table whose first present date candidate (`date`) holds only
unparseable text while a later candidate (`orderdate`) holds clean dates. -/
def exTwoDates : DF :=
  ⟨["date", "orderdate"],
    [[Value.str "junk", Value.date 3],
     [Value.str "bad", Value.date 4]]⟩

/-- A one-column table with no date candidate and no sales inputs. -/
def exPlain : DF :=
  ⟨["x"], [[Value.num 1]]⟩

/-- A table with a resolved date column: one in-interval date, one null,
one out-of-interval date. -/
def exDates : DF :=
  ⟨["order_date"], [[Value.date 5], [Value.null], [Value.date 20]]⟩

/-- A filter selection whose only active filter is the date interval
`[0, 10]`. -/
def selDate : FilterSel :=
  ⟨some (0, 10), [], [], []⟩

/-- The empty filter selection: no date interval, all accepted-value lists
empty. -/
def selEmpty : FilterSel :=
  ⟨none, [], [], []⟩

/-! ### Basic lemmas about column lookup and column assignment -/

theorem colIdx_lt_length {c : String} :
    ∀ {l : List String} {i : Nat}, colIdx l c = some i → i < l.length := by
  intro l
  induction l with
  | nil => intro i h; simp [colIdx] at h
  | cons n ns ih =>
    intro i h
    by_cases hn : n = c
    · simp [colIdx, hn] at h
      subst h
      simp
    · simp [colIdx, hn, Option.map_eq_some'] at h
      obtain ⟨j, hj, rfl⟩ := h
      have := ih hj
      simp
      omega

theorem colIdx_getElem? {c : String} :
    ∀ {l : List String} {i : Nat}, colIdx l c = some i → l[i]? = some c := by
  intro l
  induction l with
  | nil => intro i h; simp [colIdx] at h
  | cons n ns ih =>
    intro i h
    by_cases hn : n = c
    · simp [colIdx, hn] at h
      subst h
      simp [hn]
    · simp [colIdx, hn, Option.map_eq_some'] at h
      obtain ⟨j, hj, rfl⟩ := h
      simpa using ih hj

theorem colIdx_inj {l : List String} {c1 c2 : String} {i j : Nat}
    (h1 : colIdx l c1 = some i) (h2 : colIdx l c2 = some j) (hne : c1 ≠ c2) : i ≠ j := by
  intro hij
  subst hij
  have e1 := colIdx_getElem? h1
  have e2 := colIdx_getElem? h2
  rw [e1] at e2
  exact hne (Option.some.inj e2)

theorem colIdx_append_some {c : String} {xs : List String} :
    ∀ {l : List String} {j : Nat}, colIdx l c = some j → colIdx (l ++ xs) c = some j := by
  intro l
  induction l with
  | nil => intro j h; simp [colIdx] at h
  | cons n ns ih =>
    intro j h
    by_cases hn : n = c
    · simp [colIdx, hn] at h ⊢
      exact h
    · simp [colIdx, hn, Option.map_eq_some'] at h ⊢
      obtain ⟨k, hk, rfl⟩ := h
      exact ⟨k, ih hk, rfl⟩

theorem colIdx_append_self {c : String} :
    ∀ {l : List String}, colIdx l c = none → colIdx (l ++ [c]) c = some l.length := by
  intro l
  induction l with
  | nil => intro h; simp [colIdx]
  | cons n ns ih =>
    intro h
    by_cases hn : n = c
    · simp [colIdx, hn] at h
    · simp [colIdx, hn, Option.map_eq_none'] at h
      simp [colIdx, hn, ih h]

namespace DF

theorem colNames_setColWith (df : DF) (c : String) (f : List Value → Value) :
    (df.setColWith c f).colNames
      = if df.hasCol c then df.colNames else df.colNames ++ [c] := by
  unfold setColWith hasCol
  cases h : colIdx df.colNames c <;> simp [h]

theorem rows_length_setColWith (df : DF) (c : String) (f : List Value → Value) :
    (df.setColWith c f).rows.length = df.rows.length := by
  unfold setColWith
  cases h : colIdx df.colNames c <;> simp [h]

theorem hasCol_setColWith_self (df : DF) (c : String) (f : List Value → Value) :
    (df.setColWith c f).hasCol c = true := by
  unfold setColWith hasCol
  cases h : colIdx df.colNames c with
  | some i => simp [h]
  | none => simp [h, colIdx_append_self h]

theorem WF.setColWith {df : DF} (hwf : df.WF) (c : String) (f : List Value → Value) :
    (df.setColWith c f).WF := by
  unfold DF.setColWith
  cases h : colIdx df.colNames c with
  | some i =>
    intro r hr
    simp only [List.mem_map] at hr
    obtain ⟨r0, hr0, rfl⟩ := hr
    simp [hwf r0 hr0]
  | none =>
    intro r hr
    simp only [List.mem_map] at hr
    obtain ⟨r0, hr0, rfl⟩ := hr
    simp [hwf r0 hr0]

theorem col_length (df : DF) (c : String) : (df.col c).length = df.nrows := by
  simp [col, nrows]

theorem col_setColWith (df : DF) (hwf : df.WF) (c : String) (f : List Value → Value) :
    (df.setColWith c f).col c = df.rows.map f := by
  unfold setColWith
  cases h : colIdx df.colNames c with
  | some i =>
    simp only [col, cellAt, h, List.map_map]
    apply List.map_congr_left
    intro r hr
    have hi : i < r.length := by
      rw [hwf r hr]
      exact colIdx_lt_length h
    simp [List.getD_eq_getElem?_getD, List.getElem?_set_self hi]
  | none =>
    simp only [col, cellAt, colIdx_append_self h, List.map_map]
    apply List.map_congr_left
    intro r hr
    have hlen : df.colNames.length = r.length := (hwf r hr).symm
    simp [List.getD_eq_getElem?_getD, hlen, List.getElem?_concat_length]

theorem col_setColWith_ne (df : DF) (hwf : df.WF) {c c2 : String} (f : List Value → Value)
    (hne : c2 ≠ c) (hc2 : df.hasCol c2 = true) :
    (df.setColWith c f).col c2 = df.col c2 := by
  unfold hasCol at hc2
  rw [Option.isSome_iff_exists] at hc2
  obtain ⟨j, hj⟩ := hc2
  unfold setColWith
  cases h : colIdx df.colNames c with
  | some i =>
    simp only [col, cellAt, hj, List.map_map]
    apply List.map_congr_left
    intro r hr
    have hij : i ≠ j := Ne.symm (colIdx_inj hj h hne)
    simp [List.getD_eq_getElem?_getD, List.getElem?_set_ne hij]
  | none =>
    simp only [col, cellAt, hj, colIdx_append_some hj, List.map_map]
    apply List.map_congr_left
    intro r hr
    have hjlt : j < r.length := by
      rw [hwf r hr]
      exact colIdx_lt_length hj
    simp [List.getD_eq_getElem?_getD, List.getElem?_append_left hjlt]

end DF

/-! ### Structural lemmas about the pipeline stages -/

theorem DF.filterRows_rows_sublist (df : DF) (p : List Value → Bool) :
    (df.filterRows p).rows.Sublist df.rows :=
  List.filter_sublist _

/-- Every branch of `compute_sales` is one assignment to the `sales`
column, and the assigned cell is always a number. -/
theorem compute_sales_eq_setColWith (df : DF) :
    ∃ g : List Value → Value,
      compute_sales df = df.setColWith "sales" g ∧ ∀ r, ∃ x : ℚ, g r = Value.num x := by
  by_cases hs : df.hasCol "sales"
  · exact ⟨fun r => Value.num (coerceNum (df.cellAt r "sales")),
      by simp [compute_sales, hs], fun r => ⟨_, rfl⟩⟩
  · by_cases hqp : (df.hasCol "quantity" && df.hasCol "price") = true
    · by_cases hd : df.hasCol "discount"
      · exact ⟨fun r => Value.num (coerceNum (df.cellAt r "quantity") *
            coerceNum (df.cellAt r "price") * (1 - effDiscount df r)),
          by simp [compute_sales, hs, hqp, hd], fun r => ⟨_, rfl⟩⟩
      · exact ⟨fun r => Value.num (coerceNum (df.cellAt r "quantity") *
            coerceNum (df.cellAt r "price")),
          by simp [compute_sales, hs, hqp, hd], fun r => ⟨_, rfl⟩⟩
    · cases hfb : fallbackCols.find? (fun c => df.hasCol c) with
      | some fb =>
        exact ⟨fun r => Value.num (coerceNum (df.cellAt r fb)),
          by simp [compute_sales, hs, hqp, hfb], fun r => ⟨_, rfl⟩⟩
      | none =>
        exact ⟨fun _ => Value.num 0,
          by simp [compute_sales, hs, hqp, hfb], fun r => ⟨_, rfl⟩⟩

/-! ### Claim theorems -/

/-- C7: for every table and every grouping dimension name not present among
the table's columns, `safe_groupby_sum` returns an empty result (no rows);
being a total function, the aggregator never raises — missing dimensions
degrade to an empty aggregate instead of failing. -/
theorem safe_groupby_sum_missing_dimension (df : DF) (b c : String)
    (hmiss : df.hasCol b = false) :
    safe_groupby_sum df b c = [] := by
  simp [safe_groupby_sum, hmiss]

theorem safe_groupby_sum_missing_dimension_witness :
    safe_groupby_sum exScenario "region" "sales" = [] :=
  safe_groupby_sum_missing_dimension exScenario "region" "sales" (by decide)

/-- C5: for every input table and every filter selection, the filter block's
output keeps exactly the input's columns, its rows form a sublist (hence a
subset) of the input's rows, its row count is at most the input's, and the
empty selection (no date interval, empty accepted-value lists) returns the
input table unchanged. -/
theorem applyFilters_subset_same_columns_empty_identity (df : DF) (sel : FilterSel) :
    (applyFilters df sel).colNames = df.colNames
  ∧ (applyFilters df sel).rows.Sublist df.rows
  ∧ (applyFilters df sel).nrows ≤ df.nrows
  ∧ applyFilters df selEmpty = df := by
  have hnames : (applyFilters df sel).colNames = df.colNames := by
    simp only [applyFilters]
    split <;> split <;> split <;> split <;> rfl
  have hsub : (applyFilters df sel).rows.Sublist df.rows := by
    simp only [applyFilters]
    split <;> split <;> split <;> split <;>
      first
      | exact List.Sublist.refl _
      | exact List.filter_sublist _
      | exact (List.filter_sublist _).trans (List.filter_sublist _)
      | exact ((List.filter_sublist _).trans (List.filter_sublist _)).trans
          (List.filter_sublist _)
      | exact (((List.filter_sublist _).trans (List.filter_sublist _)).trans
          (List.filter_sublist _)).trans (List.filter_sublist _)
  exact ⟨hnames, hsub, hsub.length_le, rfl⟩

/-- C6: whenever a date interval `[s, e]` is active, every row surviving the
filter block has a non-null date cell, and that date lies within the
interval inclusively (null dates are excluded). -/
theorem applyFilters_date_interval (df : DF) (sel : FilterSel) (s e : ℚ)
    (hdr : sel.dateRange = some (s, e)) :
    ∀ r ∈ (applyFilters df sel).rows,
      df.cellAt r "order_date" ≠ Value.null
    ∧ ∃ d : ℚ, df.cellAt r "order_date" = Value.date d ∧ s ≤ d ∧ d ≤ e := by
  intro r hr
  have hsub : (applyFilters df sel).rows.Sublist
      (df.filterRows (fun r => dateInRange (df.cellAt r "order_date") s e)).rows := by
    simp only [applyFilters, hdr]
    split <;> split <;> split <;>
      first
      | exact List.Sublist.refl _
      | exact List.filter_sublist _
      | exact (List.filter_sublist _).trans (List.filter_sublist _)
      | exact ((List.filter_sublist _).trans (List.filter_sublist _)).trans
          (List.filter_sublist _)
  have hr1 := hsub.subset hr
  have hp : dateInRange (df.cellAt r "order_date") s e = true :=
    (List.mem_filter.mp hr1).2
  cases hv : df.cellAt r "order_date" with
  | date d =>
    rw [hv] at hp
    simp only [dateInRange, Bool.and_eq_true, decide_eq_true_eq] at hp
    exact ⟨by simp, d, rfl, hp.1, hp.2⟩
  | num x => rw [hv] at hp; simp [dateInRange] at hp
  | str t => rw [hv] at hp; simp [dateInRange] at hp
  | null => rw [hv] at hp; simp [dateInRange] at hp

theorem applyFilters_date_interval_witness :
    exDates.cellAt [Value.date 5] "order_date" ≠ Value.null
  ∧ ∃ d : ℚ, exDates.cellAt [Value.date 5] "order_date" = Value.date d
      ∧ (0 : ℚ) ≤ d ∧ d ≤ 10 :=
  applyFilters_date_interval exDates selDate 0 10 rfl [Value.date 5] (by decide)

/-- C8: a missing source file surfaces the distinct "source not found"
condition and the pipeline produces no dashboard; any other read failure
surfaces "load failed" carrying the underlying cause and likewise halts;
an ingestion failure is propagated unrecovered, and a dashboard is produced
only when ingestion succeeded. -/
theorem runPipeline_ingestion_halt :
    (∀ sel, runPipeline Source.missing sel = Except.error LoadError.sourceNotFound)
  ∧ (∀ cause sel, runPipeline (Source.unreadable cause) sel
      = Except.error (LoadError.loadFailed cause))
  ∧ (∀ s sel e, load_df s = Except.error e → runPipeline s sel = Except.error e)
  ∧ (∀ s sel d, runPipeline s sel = Except.ok d → ∃ raw, s = Source.good raw) := by
  refine ⟨fun sel => rfl, fun cause sel => rfl, ?_, ?_⟩
  · intro s sel e h
    simp [runPipeline, h]
  · intro s sel d h
    cases s with
    | missing => simp [runPipeline, load_df] at h
    | unreadable cause => simp [runPipeline, load_df] at h
    | good raw => exact ⟨raw, rfl⟩

theorem runPipeline_ingestion_halt_witness :
    runPipeline Source.missing selEmpty = Except.error LoadError.sourceNotFound :=
  runPipeline_ingestion_halt.2.2.1 Source.missing selEmpty LoadError.sourceNotFound rfl

/-- C4: for every table and candidate list, the output date field exists,
has one value per row, and every value is a date or the null marker; when a
candidate column is present the first one is parsed cell-wise (unparseable
cells become null, never failing the whole column), and when none is
present the field is null for 100% of the rows; the resolver is a total
function, so the call never raises. -/
theorem safe_to_datetime_guarantees (df : DF) (hwf : df.WF)
    (cands : List String) (nc : String) :
    (safe_to_datetime df cands nc).hasCol nc = true
  ∧ ((safe_to_datetime df cands nc).col nc).length = df.nrows
  ∧ (∀ v ∈ (safe_to_datetime df cands nc).col nc, (∃ d : ℚ, v = Value.date d) ∨ v = Value.null)
  ∧ (∀ c, cands.find? (fun x => df.hasCol x) = some c →
      (safe_to_datetime df cands nc).col nc = (df.col c).map coerceDate)
  ∧ (cands.find? (fun x => df.hasCol x) = none →
      (safe_to_datetime df cands nc).col nc = List.replicate df.nrows Value.null) := by
  cases hf : cands.find? (fun x => df.hasCol x) with
  | some c =>
    have hset : safe_to_datetime df cands nc
        = df.setColWith nc (fun r => coerceDate (df.cellAt r c)) := by
      simp [safe_to_datetime, hf]
    refine ⟨?_, ?_, ?_, ?_, ?_⟩
    · rw [hset]
      exact df.hasCol_setColWith_self nc _
    · rw [hset, df.col_setColWith hwf]
      simp [DF.nrows]
    · rw [hset, df.col_setColWith hwf]
      intro v hv
      simp only [List.mem_map] at hv
      obtain ⟨r, hr, rfl⟩ := hv
      cases df.cellAt r c <;> simp [coerceDate]
    · intro c2 hc2
      injection hc2 with hc2
      subst hc2
      rw [hset, df.col_setColWith hwf, DF.col, List.map_map]
      rfl
    · intro hnone
      cases hnone
  | none =>
    have hset : safe_to_datetime df cands nc
        = df.setColWith nc (fun _ => Value.null) := by
      simp [safe_to_datetime, hf]
    refine ⟨?_, ?_, ?_, ?_, ?_⟩
    · rw [hset]
      exact df.hasCol_setColWith_self nc _
    · rw [hset, df.col_setColWith hwf]
      simp [DF.nrows]
    · rw [hset, df.col_setColWith hwf]
      intro v hv
      simp only [List.mem_map] at hv
      obtain ⟨r, hr, rfl⟩ := hv
      exact Or.inr rfl
    · intro c2 hc2
      cases hc2
    · intro _
      rw [hset, df.col_setColWith hwf, List.map_const']
      rfl

theorem safe_to_datetime_guarantees_witness :
    (safe_to_datetime exPlain dateCandidates "order_date").col "order_date"
      = List.replicate exPlain.nrows Value.null :=
  (safe_to_datetime_guarantees exPlain (by decide) dateCandidates "order_date").2.2.2.2
    (by decide)

/-- C10: the date resolver commits to the first candidate column present in
the table — the output column is exactly the cell-wise parse of that
column, so when its cells are all unparseable the output is all null, even
if a later candidate column in the same table would have parsed cleanly. -/
theorem safe_to_datetime_first_candidate_commitment (df : DF) (hwf : df.WF)
    (cands : List String) (nc : String) (c : String)
    (hfind : cands.find? (fun x => df.hasCol x) = some c)
    (hbad : ∀ v ∈ df.col c, coerceDate v = Value.null) :
    ∀ v ∈ (safe_to_datetime df cands nc).col nc, v = Value.null := by
  have hset : safe_to_datetime df cands nc
      = df.setColWith nc (fun r => coerceDate (df.cellAt r c)) := by
    simp [safe_to_datetime, hfind]
  rw [hset, df.col_setColWith hwf]
  intro v hv
  simp only [List.mem_map] at hv
  obtain ⟨r, hr, rfl⟩ := hv
  exact hbad _ (List.mem_map_of_mem _ hr)

theorem safe_to_datetime_first_candidate_commitment_witness :
    ((safe_to_datetime exTwoDates dateCandidates "order_date").col "order_date").getD 0
        Value.null
      = Value.null :=
  safe_to_datetime_first_candidate_commitment exTwoDates (by decide) dateCandidates
    "order_date" "date" (by decide) (by decide) _ (by decide)

/-- C3: after `compute_sales`, the `sales` column exists, has exactly one
value per row, and every value is a number (never null, never non-numeric);
every cell whose numeric coercion fails contributes exactly 0; the deriver
is a total function, so the derivation never raises. -/
theorem compute_sales_always_numeric (df : DF) (hwf : df.WF) :
    (compute_sales df).hasCol "sales" = true
  ∧ ((compute_sales df).col "sales").length = df.nrows
  ∧ (∀ v ∈ (compute_sales df).col "sales", ∃ x : ℚ, v = Value.num x)
  ∧ (∀ v : Value, (∀ x : ℚ, v ≠ Value.num x) → coerceNum v = 0) := by
  obtain ⟨g, hg, hnum⟩ := compute_sales_eq_setColWith df
  refine ⟨?_, ?_, ?_, ?_⟩
  · rw [hg]
    exact df.hasCol_setColWith_self _ _
  · rw [hg, df.col_setColWith hwf]
    simp [DF.nrows]
  · rw [hg, df.col_setColWith hwf]
    intro v hv
    simp only [List.mem_map] at hv
    obtain ⟨r, hr, rfl⟩ := hv
    exact hnum r
  · intro v hv
    cases v with
    | num x => exact absurd rfl (hv x)
    | str s => rfl
    | date d => rfl
    | null => rfl

theorem compute_sales_always_numeric_witness :
    (compute_sales exScenario).hasCol "sales" = true :=
  (compute_sales_always_numeric exScenario (by decide)).1

/-- C1: `compute_sales` selects its source in priority order — an existing
`sales` column is coerced and used as-is; else, with both `quantity` and
`price` present, `sales = quantity * price * (1 - discount_fraction)`,
the discount term dropping to 0 when no `discount` column exists; else the
first present fallback column of `order_total`/`amount`/`total`, coerced;
else the constant 0 for every row. -/
theorem compute_sales_source_priority (df : DF) (hwf : df.WF) :
    (df.hasCol "sales" = true →
      (compute_sales df).col "sales"
        = (df.col "sales").map (fun v => Value.num (coerceNum v)))
  ∧ (df.hasCol "sales" = false → df.hasCol "quantity" = true → df.hasCol "price" = true →
      (compute_sales df).col "sales" = df.rows.map (fun r =>
        Value.num (coerceNum (df.cellAt r "quantity") * coerceNum (df.cellAt r "price") *
          (1 - (if df.hasCol "discount" then effDiscount df r else 0)))))
  ∧ (df.hasCol "sales" = false → (df.hasCol "quantity" && df.hasCol "price") = false →
      ∀ fb, fallbackCols.find? (fun c => df.hasCol c) = some fb →
        (compute_sales df).col "sales"
          = (df.col fb).map (fun v => Value.num (coerceNum v)))
  ∧ (df.hasCol "sales" = false → (df.hasCol "quantity" && df.hasCol "price") = false →
      fallbackCols.find? (fun c => df.hasCol c) = none →
        (compute_sales df).col "sales" = List.replicate df.nrows (Value.num 0)) := by
  refine ⟨?_, ?_, ?_, ?_⟩
  · intro hs
    have hcs : compute_sales df
        = df.setColWith "sales" (fun r => Value.num (coerceNum (df.cellAt r "sales"))) := by
      simp [compute_sales, hs]
    rw [hcs, df.col_setColWith hwf, DF.col, List.map_map]
    rfl
  · intro hs hq hp
    by_cases hd : df.hasCol "discount"
    · have hcs : compute_sales df = df.setColWith "sales" (fun r =>
          Value.num (coerceNum (df.cellAt r "quantity") *
            coerceNum (df.cellAt r "price") * (1 - effDiscount df r))) := by
        simp [compute_sales, hs, hq, hp, hd]
      rw [hcs, df.col_setColWith hwf]
      apply List.map_congr_left
      intro r hr
      simp [hd]
    · have hcs : compute_sales df = df.setColWith "sales" (fun r =>
          Value.num (coerceNum (df.cellAt r "quantity") *
            coerceNum (df.cellAt r "price"))) := by
        simp [compute_sales, hs, hq, hp, hd]
      rw [hcs, df.col_setColWith hwf]
      apply List.map_congr_left
      intro r hr
      simp [hd]
  · intro hs hqp fb hfb
    have hcs : compute_sales df
        = df.setColWith "sales" (fun r => Value.num (coerceNum (df.cellAt r fb))) := by
      simp [compute_sales, hs, hqp, hfb]
    rw [hcs, df.col_setColWith hwf, DF.col, List.map_map]
    rfl
  · intro hs hqp hfb
    have hcs : compute_sales df = df.setColWith "sales" (fun _ => Value.num 0) := by
      simp [compute_sales, hs, hqp, hfb]
    rw [hcs, df.col_setColWith hwf, List.map_const']
    rfl

theorem compute_sales_source_priority_witness :
    (compute_sales exSales).col "sales"
      = (exSales.col "sales").map (fun v => Value.num (coerceNum v)) :=
  (compute_sales_source_priority exSales (by decide)).1 (by decide)

/-- C2: when the coerced discount column's maximum exceeds 1, the whole
column is divided by 100 before the sales formula (a dataset-wide decision);
when the maximum is at most 1 the raw values are used unchanged; on the
two-row scenario table the derived sales are `[20, 2.5]` and their sum is
`22.5`. -/
theorem compute_sales_discount_percent_heuristic :
    (∀ df : DF, df.WF → df.hasCol "sales" = false → df.hasCol "quantity" = true →
      df.hasCol "price" = true → df.hasCol "discount" = true →
      (discountIsPercent ((df.col "discount").map coerceNum) = true →
        (compute_sales df).col "sales" = df.rows.map (fun r =>
          Value.num (coerceNum (df.cellAt r "quantity") * coerceNum (df.cellAt r "price") *
            (1 - coerceNum (df.cellAt r "discount") / 100))))
      ∧ (discountIsPercent ((df.col "discount").map coerceNum) = false →
        (compute_sales df).col "sales" = df.rows.map (fun r =>
          Value.num (coerceNum (df.cellAt r "quantity") * coerceNum (df.cellAt r "price") *
            (1 - coerceNum (df.cellAt r "discount"))))))
  ∧ (compute_sales exScenario).col "sales" = [Value.num 20, Value.num (5 / 2)]
  ∧ totalSales (compute_sales exScenario) = 45 / 2 := by
  have hmain : ∀ df : DF, df.WF → df.hasCol "sales" = false → df.hasCol "quantity" = true →
      df.hasCol "price" = true → df.hasCol "discount" = true →
      (discountIsPercent ((df.col "discount").map coerceNum) = true →
        (compute_sales df).col "sales" = df.rows.map (fun r =>
          Value.num (coerceNum (df.cellAt r "quantity") * coerceNum (df.cellAt r "price") *
            (1 - coerceNum (df.cellAt r "discount") / 100))))
      ∧ (discountIsPercent ((df.col "discount").map coerceNum) = false →
        (compute_sales df).col "sales" = df.rows.map (fun r =>
          Value.num (coerceNum (df.cellAt r "quantity") * coerceNum (df.cellAt r "price") *
            (1 - coerceNum (df.cellAt r "discount"))))) := by
    intro df hwf hs hq hp hd
    have hcs : compute_sales df = df.setColWith "sales" (fun r =>
        Value.num (coerceNum (df.cellAt r "quantity") *
          coerceNum (df.cellAt r "price") * (1 - effDiscount df r))) := by
      simp [compute_sales, hs, hq, hp, hd]
    constructor
    · intro hpct
      rw [hcs, df.col_setColWith hwf]
      apply List.map_congr_left
      intro r hr
      simp [effDiscount, hpct]
    · intro hpct
      rw [hcs, df.col_setColWith hwf]
      apply List.map_congr_left
      intro r hr
      simp [effDiscount, hpct]
  have hcol : (compute_sales exScenario).col "sales"
      = [Value.num 20, Value.num (5 / 2)] := by
    simp [compute_sales, exScenario, DF.hasCol, DF.setColWith, DF.cellAt, DF.col, colIdx,
      effDiscount, discountIsPercent, coerceNum, List.max?]
    norm_num
  refine ⟨hmain, hcol, ?_⟩
  rw [totalSales, hcol]
  norm_num [coerceNum]

theorem compute_sales_discount_percent_heuristic_witness :
    (compute_sales exScenario).col "sales" = exScenario.rows.map (fun r =>
      Value.num (coerceNum (exScenario.cellAt r "quantity") *
        coerceNum (exScenario.cellAt r "price") *
        (1 - coerceNum (exScenario.cellAt r "discount") / 100))) :=
  (compute_sales_discount_percent_heuristic.1 exScenario (by decide) (by decide) (by decide)
    (by decide) (by decide)).1 (by decide)

/-- C9 counterexample: after `safe_to_datetime` is called on a table with no
`order_date` column, the argument table (which the source mutates with
`df[new_col] = …` and returns) differs from its pre-call state — the claim
that every transformation leaves the table it was given unchanged is false. -/
theorem transformation_leaves_argument_unchanged_counterexample :
    safe_to_datetime_argAfter exPlain dateCandidates "order_date" ≠ exPlain := by
  decide

/-- C9 (amended): the filter block works on a copy and leaves its input
table untouched, but `safe_to_datetime` and `compute_sales` mutate the
table they are given in place (the argument's post-call state is the
returned table); the mutation is confined to the derived column — every
other column present in the input keeps its values. -/
theorem transformations_mutation_frame (df : DF) (hwf : df.WF) (sel : FilterSel)
    (c : String) :
    applyFilters_argAfter df sel = df
  ∧ safe_to_datetime_argAfter df dateCandidates "order_date"
      = safe_to_datetime df dateCandidates "order_date"
  ∧ compute_sales_argAfter df = compute_sales df
  ∧ (c ≠ "order_date" → df.hasCol c = true →
      (safe_to_datetime df dateCandidates "order_date").col c = df.col c)
  ∧ (c ≠ "sales" → df.hasCol c = true →
      (compute_sales df).col c = df.col c) := by
  refine ⟨rfl, rfl, rfl, ?_, ?_⟩
  · intro hne hc
    unfold safe_to_datetime
    cases hf : dateCandidates.find? (fun x => df.hasCol x) with
    | some c0 => exact df.col_setColWith_ne hwf _ hne hc
    | none => exact df.col_setColWith_ne hwf _ hne hc
  · intro hne hc
    obtain ⟨g, hg, _⟩ := compute_sales_eq_setColWith df
    rw [hg]
    exact df.col_setColWith_ne hwf _ hne hc

theorem transformations_mutation_frame_witness :
    (compute_sales exPlain).col "x" = exPlain.col "x" :=
  (transformations_mutation_frame exPlain (by decide) selEmpty "x").2.2.2.2
    (by decide) (by decide)
